import Mathlib

/-!
Shallow embedding of the go-pdns PowerDNS pipe-backend library.

Go strings are modelled as Lean `String` (whose `data` is a `List Char`);
the operations of Go's `strings` and `strconv` packages used by the code
are modelled below over the character list.  Go `error` values are
modelled by their message text (`String`), a fallible call returning
`Except String α` or `α × Option String` the way the Go function returns
`(value, error)`.  Go `int` is modelled as `Int`.
-/

/-! ### Models of the Go standard-library functions used by the code -/

/-- Model of `strings.Split(s, sep)` for a one-character separator. -/
def goSplit (sep : Char) (s : String) : List String :=
  (s.data.splitOn sep).map (fun cs => ⟨cs⟩)

/-- Model of `strings.Join` (tab-joining, used to build well-formed lines). -/
def goJoin (sep : Char) (fs : List String) : String :=
  ⟨List.intercalate [sep] (fs.map String.data)⟩

/-- Model of `strings.SplitN(s, sep, 2)`: the part before the first
separator, and `some` remainder when the separator occurs (Go returns a
slice of length 2 then, of length 1 otherwise). -/
def splitN2 (sep : Char) (s : String) : String × Option String :=
  match s.data.dropWhile (· ≠ sep) with
  | [] => (s, none)
  | _ :: rest => (⟨s.data.takeWhile (· ≠ sep)⟩, some ⟨rest⟩)

/-- Model of `strings.TrimRight(s, cutset)`. -/
def trimRightSet (s : String) (cutset : List Char) : String :=
  ⟨(s.data.reverse.dropWhile (fun c => cutset.contains c)).reverse⟩

/-- Model of `strings.Replace(s, "\n", " ", -1)`. -/
def flattenNewlines (s : String) : String :=
  ⟨s.data.map (fun c => if c = '\n' then ' ' else c)⟩

/-- Value of a non-empty all-decimal-digit character list, `none` otherwise. -/
def decDigits (cs : List Char) : Option Nat :=
  cs.foldl
    (fun acc c =>
      match acc with
      | none => none
      | some n => if c.isDigit then some (n * 10 + (c.toNat - 48)) else none)
    (some 0)

/-- Model of `strconv.Atoi`: `none` on a parse failure (Go then returns the
value `0` together with a non-nil error). -/
def atoi (s : String) : Option Int :=
  match s.data with
  | [] => none
  | '+' :: rest => if rest.isEmpty then none else (decDigits rest).map Int.ofNat
  | '-' :: rest => if rest.isEmpty then none else (decDigits rest).map (fun n => -(n : Int))
  | _ => (decDigits s.data).map Int.ofNat

/-- Model of `bufio.Reader.ReadString('\n')`: the first line of the input
including its terminator, and the remaining input; `none` when the input
holds no terminator (Go then reports `io.EOF`, and the code under study
discards the partial data). -/
def readLine (inp : List Char) : Option (String × List Char) :=
  match inp.dropWhile (· ≠ '\n') with
  | [] => none
  | _ :: rest => some (⟨inp.takeWhile (· ≠ '\n') ++ ['\n']⟩, rest)

/-! ### `pipe/backend/query.go` -/

/-- `backend.Query` (query.go). -/
structure Query where
  ProtocolVersion : Int := 0
  QName : String := ""
  QClass : String := ""
  QType : String := ""
  Id : String := ""
  RemoteIpAddress : String := ""
  LocalIpAddress : String := ""
  EdnsSubnetAddress : String := ""
  deriving Repr, DecidableEq

/-- `Query.fromData` (query.go): decode the tab-separated data portion of a
`Q` line at the query's preset protocol version. -/
def Query.fromData (q : Query) (data : String) : Except String Query :=
  let parts := goSplit '\t' data
  let common : Query → Query := fun q2 =>
    { q2 with
      QName := parts.getD 0 ""
      QClass := parts.getD 1 ""
      QType := parts.getD 2 ""
      Id := parts.getD 3 ""
      RemoteIpAddress := parts.getD 4 "" }
  if q.ProtocolVersion = 1 then
    if parts.length ≠ 5 then .error "v1 query should have 5 data parts"
    else .ok (common q)
  else if q.ProtocolVersion = 2 then
    if parts.length ≠ 6 then .error "v2 query should have 6 data parts"
    else .ok (common { q with LocalIpAddress := parts.getD 5 "" })
  else if q.ProtocolVersion = 3 then
    if parts.length ≠ 7 then .error "v3 query should have 7 data parts"
    else .ok (common
      { q with
        LocalIpAddress := parts.getD 5 ""
        EdnsSubnetAddress := parts.getD 6 "" })
  else .error "Unknown protocol version in query"

/-- `Query.String` (query.go): serialise the query as a full `Q` line.
(Named `string` because `String` would collide with the Lean type.) -/
def Query.string (q : Query) : Except String String :=
  if q.ProtocolVersion < 1 ∨ q.ProtocolVersion > 3 then
    .error "Unknown protocol version in query"
  else if q.ProtocolVersion = 1 then
    .ok ("Q\t" ++ q.QName ++ "\t" ++ q.QClass ++ "\t" ++ q.QType ++ "\t"
        ++ q.Id ++ "\t" ++ q.RemoteIpAddress ++ "\n")
  else if q.ProtocolVersion = 2 then
    .ok ("Q\t" ++ q.QName ++ "\t" ++ q.QClass ++ "\t" ++ q.QType ++ "\t"
        ++ q.Id ++ "\t" ++ q.RemoteIpAddress ++ "\t" ++ q.LocalIpAddress ++ "\n")
  else if q.ProtocolVersion = 3 then
    .ok ("Q\t" ++ q.QName ++ "\t" ++ q.QClass ++ "\t" ++ q.QType ++ "\t"
        ++ q.Id ++ "\t" ++ q.RemoteIpAddress ++ "\t" ++ q.LocalIpAddress ++ "\t"
        ++ q.EdnsSubnetAddress ++ "\n")
  else .error "Unknown protocol version in query"

/-! ### `pipe/backend/response.go` -/

/-- `backend.Response` (response.go). -/
structure Response where
  ProtocolVersion : Int := 0
  ScopeBits : String := ""
  Auth : String := ""
  QName : String := ""
  QClass : String := ""
  QType : String := ""
  TTL : String := ""
  Id : String := ""
  Content : String := ""
  deriving Repr, DecidableEq

/-- `Response.String` (response.go): serialise the response as a `DATA`
line.  (Named `string` because `String` would collide with the Lean type.) -/
def Response.string (r : Response) : Except String String :=
  let v12 := "DATA\t" ++ r.QName ++ "\t" ++ r.QClass ++ "\t" ++ r.QType ++ "\t"
      ++ r.TTL ++ "\t" ++ r.Id ++ "\t" ++ r.Content ++ "\n"
  if r.ProtocolVersion = 1 ∨ r.ProtocolVersion = 2 then .ok v12
  else if r.ProtocolVersion = 3 then
    .ok ("DATA\t" ++ r.ScopeBits ++ "\t" ++ r.Auth ++ "\t" ++ r.QName ++ "\t"
      ++ r.QClass ++ "\t" ++ r.QType ++ "\t" ++ r.TTL ++ "\t" ++ r.Id ++ "\t"
      ++ r.Content ++ "\n")
  else .error "Unknown protocol version in response"

/-! ### `backend.go` (src/unnamed/part_000): the protocol engine

The buffered channel is modelled inside `Backend` itself: `input` holds the
bytes still to be read, `output` the text successfully written, and
`writeOracle` prescribes the outcome of the successive write/flush
operations (an empty oracle means every operation succeeds; `some e` makes
the corresponding operation fail with message `e`). -/

/-- `backend.Backend` (backend.go) together with its modelled channel. -/
structure Backend where
  Banner : String := ""
  ProtocolVersion : Int := 0
  input : List Char := []
  output : String := ""
  writeOracle : List (Option String) := []
  deriving Repr, DecidableEq

/-- Model of `bufio.Writer.WriteString`: consumes one oracle entry; on
success the text is appended to `output`. -/
def Backend.writeOp (b : Backend) (s : String) : Backend × Option String :=
  match b.writeOracle with
  | [] => ({ b with output := b.output ++ s }, none)
  | none :: rest => ({ b with output := b.output ++ s, writeOracle := rest }, none)
  | some e :: rest => ({ b with writeOracle := rest }, some e)

/-- Model of `bufio.Writer.Flush`: consumes one oracle entry. -/
def Backend.flushOp (b : Backend) : Backend × Option String :=
  match b.writeOracle with
  | [] => (b, none)
  | none :: rest => ({ b with writeOracle := rest }, none)
  | some e :: rest => ({ b with writeOracle := rest }, some e)

/-- `Backend.Negotiate` (backend.go): the `HELO` handshake. -/
def Backend.Negotiate (b : Backend) : Backend × Option String :=
  match readLine b.input with
  | none => ({ b with input := [] }, some "EOF")
  | some (hello, rest) =>
    let b1 := { b with input := rest }
    let parts := goSplit '\t' (trimRightSet hello ['\r', '\n'])
    if parts.length ≠ 2 ∨ parts.getD 0 "" ≠ "HELO" then
      (b1, some "Bad hello from client")
    else
      let vOpt := atoi (parts.getD 1 "")
      let version := vOpt.getD 0
      if version < 1 ∨ version > 3 ∨ vOpt = none then
        (b1, some "Unknown protocol version requested")
      else
        match b1.writeOp ("OK\t" ++ b.Banner ++ "\n") with
        | (b2, some e) => (b2, some e)
        | (b2, none) =>
          match b2.flushOp with
          | (b3, some e) => (b3, some e)
          | (b3, none) => ({ b3 with ProtocolVersion := version }, none)

/-- `backend.Callback` (backend.go). -/
abbrev Callback := Backend → Query → List Response × Option String

/-- `test_helpers.EmptyDispatch` (helpers.go): a callback returning no
responses and no error. -/
def emptyDispatch : Callback := fun _ _ => ([], none)

/-- `Backend.handleQ` (backend.go). -/
def Backend.handleQ (b : Backend) (data : String) (cb : Callback) :
    List Response × Option String :=
  match Query.fromData { ProtocolVersion := b.ProtocolVersion } data with
  | .error e => ([], some e)
  | .ok q => cb b q

/-- `Backend.handleAXFR` (backend.go). -/
def Backend.handleAXFR (_ : Backend) : List Response × Option String :=
  ([], some "AXFR requests not supported")

/-- Outcome of `Backend.Run`: clean return (`nil`), an error return, or a
runtime fault (a Go panic, which `Run` does not catch). -/
inductive RunResult where
  | ok
  | fatal (e : String)
  | fault
  deriving Repr, DecidableEq

/-- The DATA loop of `Backend.Run` (backend.go): stamp the negotiated
version on each response, serialise it (substituting a `LOG` line if the
serialisation fails) and write it; a write failure is fatal. -/
def Backend.writeResponses (b : Backend) (rs : List Response) :
    Backend × Option String :=
  match rs with
  | [] => (b, none)
  | r :: rest =>
    let data :=
      match Response.string { r with ProtocolVersion := b.ProtocolVersion } with
      | .ok d => d
      | .error e => "LOG\tError serialising response: " ++ e ++ "\n"
    match b.writeOp data with
    | (b2, some e) => (b2, some (e ++ " while writing DATA response"))
    | (b2, none) => b2.writeResponses rest

/-- The loop of `Backend.Run` (backend.go).  One iteration reads a line,
dispatches on its command token, and either logs a per-request failure
(`LOG`+`FAIL`) or writes the `DATA` lines and the `END` terminator; a `Q`
line without a tab makes the Go code index `parts[1]` out of range, which
is the `fault` outcome.  The recursion is driven by fuel so that the
definition stays structurally recursive; each iteration consumes at least
the line terminator from the input, so with fuel exceeding the input
length (as `Backend.run` supplies) the `0` case is never reached. -/
def Backend.runAux (cb : Callback) : Nat → Backend → RunResult × Backend
  | 0, b => (.ok, b)
  | fuel + 1, b =>
    match readLine b.input with
    | none => (.ok, { b with input := [] })
    | some (line, rest) =>
      let b1 := { b with input := rest }
      let (cmd, remainder) := splitN2 '\t' (trimRightSet line ['\n'])
      let dispatched : Option (List Response × Option String) :=
        if cmd = "Q" then
          match remainder with
          | some data => some (b1.handleQ data cb)
          | none => none
        else if cmd = "PING" then some ([], none)
        else if cmd = "AXFR" then some b1.handleAXFR
        else some ([], some "Bad command")
      match dispatched with
      | none => (.fault, b1)
      | some (responses, err) =>
        match err with
        | some e =>
          let msg := "LOG\tError handling line: " ++ flattenNewlines e ++ "\nFAIL\n"
          match b1.writeOp msg with
          | (b2, some e2) => (.fatal (e2 ++ " while writing FAIL response"), b2)
          | (b2, none) =>
            match b2.flushOp with
            | (b3, some e2) => (.fatal (e2 ++ " while flushing FAIL response"), b3)
            | (b3, none) => Backend.runAux cb fuel b3
        | none =>
          match b1.writeResponses responses with
          | (b2, some e2) => (.fatal e2, b2)
          | (b2, none) =>
            let endRes :=
              match b2.writeOp "END\n" with
              | (b3, some e2) => (b3, some e2)
              | (b3, none) => b3.flushOp
            match endRes with
            | (b4, some e2) => (.fatal (e2 ++ " while writing END"), b4)
            | (b4, none) => Backend.runAux cb fuel b4

/-- `Backend.Run` (backend.go). -/
def Backend.run (cb : Callback) (b : Backend) : RunResult × Backend :=
  Backend.runAux cb (b.input.length + 1) b

/-! ### `pipe/dsl/context.go` -/

/-- `dsl.Context` (context.go). -/
structure Context where
  DefaultTTL : Int
  Query : Query
  QType : String
  Matches : List String
  Error : Option String
  Answers : List Response
  deriving DecidableEq

/-- `Context.ReplyExtra` (context.go): append an answer with explicit name
and TTL (`strconv.Itoa` is `toString` on `Int`). -/
def Context.ReplyExtra (c : Context) (qname content : String) (ttl : Int) : Context :=
  { c with
    Answers := c.Answers ++
      [{ QName := qname
         QClass := c.Query.QClass
         QType := c.QType
         Id := c.Query.Id
         Content := content
         TTL := toString ttl }] }

/-- `Context.Reply` (context.go). -/
def Context.Reply (c : Context) (content : String) : Context :=
  c.ReplyExtra c.Query.QName content c.DefaultTTL

/-- `Context.ReplyTTL` (context.go). -/
def Context.ReplyTTL (c : Context) (content : String) (ttl : Int) : Context :=
  c.ReplyExtra c.Query.QName content ttl

/-! ### `pipe/dsl/dsl.go`

A compiled `regexp.Regexp` enters the router only through its
`FindStringSubmatch` method, so a matcher is modelled as a function from
the query name to `none` (no match, Go `nil`) or `some` list of matches
(the whole match first, then the capture groups).  A `dsl.Callback`
mutates the shared context through a pointer; it is modelled as a function
on contexts. -/

/-- `dsl.callbackNode` (dsl.go). -/
structure callbackNode where
  matcher : String → Option (List String)
  fn : Context → Context

/-- `dsl.DSL` (dsl.go).  The Go `map[string][]callbackNode` is modelled as
a total function with `[]` (Go's nil slice) for absent keys. -/
structure DSL where
  callbacks : String → List callbackNode
  qtypeSort : List String
  defaultTTL : Int
  beforeCallback : Option (Context → Context)

/-- `dsl.NewWithTTL` (dsl.go). -/
def DSL.NewWithTTL (ttl : Int) : DSL :=
  { callbacks := fun _ => []
    qtypeSort := []
    defaultTTL := ttl
    beforeCallback := none }

/-- `dsl.New` (dsl.go): default TTL of one hour. -/
def DSL.New : DSL := DSL.NewWithTTL 3600

/-- `DSL.Before` (dsl.go). -/
def DSL.Before (d : DSL) (f : Context → Context) : DSL :=
  { d with beforeCallback := some f }

/-- `DSL.Register` (dsl.go): append the node to the qtype's list; append
the qtype itself to `qtypeSort` when it appears for the first time. -/
def DSL.Register (d : DSL) (qtype : String)
    (matcher : String → Option (List String)) (f : Context → Context) : DSL :=
  { d with
    qtypeSort :=
      if d.qtypeSort.contains qtype then d.qtypeSort else d.qtypeSort ++ [qtype]
    callbacks := fun t =>
      if t = qtype then d.callbacks t ++ [{ matcher := matcher, fn := f }]
      else d.callbacks t }

/-- `DSL.runNode` (dsl.go): on a match, save the capture groups, install
the sub-matches, run the hook unconditionally, run the handler only when
no error is set, and restore the saved capture groups (the Go `defer`). -/
def DSL.runNode (d : DSL) (c : Context) (node : callbackNode) : Context :=
  match node.matcher c.Query.QName with
  | none => c
  | some ms =>
    if ms.length > 0 then
      let oldmatches := c.Matches
      let c1 := { c with Matches := ms.drop 1 }
      let c2 :=
        match d.beforeCallback with
        | some f => f c1
        | none => c1
      let c3 := if c2.Error = none then node.fn c2 else c2
      { c3 with Matches := oldmatches }
    else c

/-- The inner loop of `DSL.Lookup` (dsl.go): run the nodes in order,
returning `some` error as soon as the context carries one. -/
def DSL.runNodes (d : DSL) (c : Context) : List callbackNode → Context × Option String
  | [] => (c, none)
  | node :: rest =>
    let c2 := d.runNode c node
    match c2.Error with
    | some e => (c2, some e)
    | none => d.runNodes c2 rest

/-- The outer loop of `DSL.Lookup` (dsl.go): set `c.QType` for each
candidate qtype and run its nodes, aborting on the first error. -/
def DSL.runTypes (d : DSL) (c : Context) : List String → Context × Option String
  | [] => (c, none)
  | qtype :: rest =>
    match d.runNodes { c with QType := qtype } (d.callbacks qtype) with
    | (c2, some e) => (c2, some e)
    | (c2, none) => d.runTypes c2 rest

/-- The context `DSL.Lookup` starts from (the `c :=` initialiser in
dsl.go). -/
def DSL.initContext (d : DSL) (q : Query) : Context :=
  { DefaultTTL := d.defaultTTL
    Query := q
    QType := ""
    Matches := []
    Error := none
    Answers := [] }

/-- The candidate-type sequence of `DSL.Lookup` (the `runOn :=`
initialiser in dsl.go). -/
def DSL.candidates (d : DSL) (q : Query) : List String :=
  if q.QType = "ANY" then d.qtypeSort else [q.QType]

/-- `DSL.Lookup` (dsl.go): run all registered callbacks against the query;
on an error return `nil` (here `[]`) and the error, otherwise the
accumulated answers. -/
def DSL.Lookup (d : DSL) (q : Query) : List Response × Option String :=
  match d.runTypes (d.initContext q) (d.candidates q) with
  | (_, some e) => ([], some e)
  | (c2, none) => (c2.Answers, none)

/-! ### Spec-side definitions used to state the claims -/

/-- One gated step of the straight-line dispatch pass: a node is skipped
once the context carries an error (the first error is sticky). -/
def DSL.gatedNode (d : DSL) (c : Context) (node : callbackNode) : Context :=
  if c.Error.isSome then c else d.runNode c node

/-- The straight-line dispatch pass: every node of every candidate type is
visited once, in order, gated on the sticky error. -/
def DSL.gatedRun (d : DSL) (c : Context) (ts : List String) : Context :=
  ts.foldl
    (fun cAcc t => (d.callbacks t).foldl (fun c2 n => d.gatedNode c2 n)
      { cAcc with QType := t })
    c

/-- First-occurrence order of a list of qtypes: the spec's global
discovery order, independent of the registration fold. -/
def discoveryOrder : List String → List String
  | [] => []
  | t :: ts => t :: (discoveryOrder ts).filter (fun x => x != t)

/-- The marker contents registered for a qtype, in registration order. -/
def contentsAt (regs : List (String × String)) (t : String) : List String :=
  (regs.filter (fun r => r.1 == t)).map (fun r => r.2)

/-- A handler that replies with a fixed marker content. -/
def markerFn (content : String) : Context → Context :=
  fun c => c.Reply content

/-- A matcher that matches every name, with no capture groups. -/
def alwaysMatch : String → Option (List String) :=
  fun qname => some [qname]

/-- The router built by registering, in order, a marker handler with an
always-matching pattern for each pair (qtype, content). -/
def mkMarkerDSL (regs : List (String × String)) : DSL :=
  regs.foldl (fun d r => d.Register r.1 alwaysMatch (markerFn r.2)) DSL.New

/-- The response a marker handler produces when run for qtype `t`
(the default TTL of `DSL.New` is 3600). -/
def markerResponse (q : Query) (t content : String) : Response :=
  { QName := q.QName
    QClass := q.QClass
    QType := t
    Id := q.Id
    Content := content
    TTL := toString (3600 : Int) }

/-- `test_helpers.FakeResponse` at version 3 (helpers.go), used as a
concrete instantiation point. -/
def fakeResponse : Response :=
  { ProtocolVersion := 3
    ScopeBits := "24"
    Auth := "auth"
    QName := "example.com"
    QClass := "IN"
    QType := "ANY"
    TTL := "3600"
    Id := "-1"
    Content := "foo" }

/-- `test_helpers.FakeQuery` at version 3 (helpers.go), used as a concrete
instantiation point. -/
def fakeQuery : Query :=
  { ProtocolVersion := 3
    QClass := "IN"
    QType := "ANY"
    QName := "example.com"
    Id := "-1"
    RemoteIpAddress := "127.0.0.2"
    LocalIpAddress := "127.0.0.1"
    EdnsSubnetAddress := "127.0.0.3" }

/-- A concrete context for witnesses. -/
def exampleContext : Context :=
  { DefaultTTL := 60
    Query := fakeQuery
    QType := "A"
    Matches := ["old"]
    Error := none
    Answers := [] }

/-- A concrete node for witnesses: always matches with one capture group,
and replies with a fixed content. -/
def exampleNode : callbackNode :=
  { matcher := fun _ => some ["example.com", "g1"]
    fn := fun c => c.Reply "marker" }

/-- A hook that tampers with the context only when the error flag is set. -/
def errorSnooper : Context → Context :=
  fun c => if c.Error.isSome then { c with Answers := [] } else c

/-- The answer a marker handler appends when run with query `q`, default
TTL `ttl` and active qtype `t`. -/
def markerAnswer (q : Query) (ttl : Int) (t content : String) : Response :=
  { QName := q.QName
    QClass := q.QClass
    QType := t
    Id := q.Id
    Content := content
    TTL := toString ttl }

/-- Whether one character list is an initial segment of another. -/
def leadsList : List Char → List Char → Bool
  | [], _ => true
  | _ :: _, [] => false
  | a :: as, b :: bs => a == b && leadsList as bs

/-- Whether `needle` occurs contiguously inside the second list (the
"message contains" predicate of the spec). -/
def occursIn (needle : List Char) : List Char → Bool
  | [] => leadsList needle []
  | c :: rest => leadsList needle (c :: rest) || occursIn needle rest

/-! ### Theorems -/

/-- C8: encoding a response at version 1 produces exactly the same text as
at version 2 — one DATA line with the 6 fields name, class, type, ttl, id,
content tab-joined and one trailing terminator; version 3 prepends the
scope-bits and auth fields (8 fields); any version outside 1–3 fails with
the unknown-protocol-version error. -/
theorem response_encoding_spec (r : Response) :
    ({ r with ProtocolVersion := 1 } : Response).string
        = ({ r with ProtocolVersion := 2 } : Response).string
  ∧ ({ r with ProtocolVersion := 1 } : Response).string
        = .ok ("DATA\t" ++ r.QName ++ "\t" ++ r.QClass ++ "\t" ++ r.QType ++ "\t"
            ++ r.TTL ++ "\t" ++ r.Id ++ "\t" ++ r.Content ++ "\n")
  ∧ ({ r with ProtocolVersion := 3 } : Response).string
        = .ok ("DATA\t" ++ r.ScopeBits ++ "\t" ++ r.Auth ++ "\t" ++ r.QName ++ "\t"
            ++ r.QClass ++ "\t" ++ r.QType ++ "\t" ++ r.TTL ++ "\t" ++ r.Id ++ "\t"
            ++ r.Content ++ "\n")
  ∧ ∀ v : Int, v < 1 ∨ v > 3 →
      ({ r with ProtocolVersion := v } : Response).string
        = .error "Unknown protocol version in response" := by
  refine ⟨by simp [Response.string], by simp [Response.string],
    by simp [Response.string], ?_⟩
  intro v hv
  simp only [Response.string]
  rw [if_neg (by omega), if_neg (by omega)]

/-- Witness for C8 at a concrete response and the out-of-range version 0. -/
theorem response_encoding_spec_witness :
    (({ fakeResponse with ProtocolVersion := 1 } : Response).string
        = ({ fakeResponse with ProtocolVersion := 2 } : Response).string)
  ∧ ({ fakeResponse with ProtocolVersion := 0 } : Response).string
        = .error "Unknown protocol version in response" :=
  ⟨(response_encoding_spec fakeResponse).1,
    (response_encoding_spec fakeResponse).2.2.2 0 (Or.inl (by decide))⟩

/-- C3: for v ∈ {1,2,3} a field count differing from the required one
(5/6/7) fails with the "vN query should have M data parts" error; the
exact count succeeds with the positional field mapping (local address is
field 6 at v ≥ 2, client subnet field 7 at v = 3); a version outside 1–3
fails with the unknown-protocol-version error. -/
theorem query_decode_spec (q : Query) (data : String) :
    (q.ProtocolVersion = 1 →
      ((goSplit '\t' data).length ≠ 5 →
        q.fromData data = .error "v1 query should have 5 data parts") ∧
      (∀ a b c d e, goSplit '\t' data = [a, b, c, d, e] →
        q.fromData data = .ok { q with
          QName := a, QClass := b, QType := c, Id := d, RemoteIpAddress := e }))
  ∧ (q.ProtocolVersion = 2 →
      ((goSplit '\t' data).length ≠ 6 →
        q.fromData data = .error "v2 query should have 6 data parts") ∧
      (∀ a b c d e f, goSplit '\t' data = [a, b, c, d, e, f] →
        q.fromData data = .ok { q with
          QName := a, QClass := b, QType := c, Id := d, RemoteIpAddress := e,
          LocalIpAddress := f }))
  ∧ (q.ProtocolVersion = 3 →
      ((goSplit '\t' data).length ≠ 7 →
        q.fromData data = .error "v3 query should have 7 data parts") ∧
      (∀ a b c d e f g, goSplit '\t' data = [a, b, c, d, e, f, g] →
        q.fromData data = .ok { q with
          QName := a, QClass := b, QType := c, Id := d, RemoteIpAddress := e,
          LocalIpAddress := f, EdnsSubnetAddress := g }))
  ∧ (q.ProtocolVersion < 1 ∨ q.ProtocolVersion > 3 →
      q.fromData data = .error "Unknown protocol version in query") := by
  refine ⟨?_, ?_, ?_, ?_⟩
  · intro h1
    refine ⟨fun hn => by simp [Query.fromData, h1, hn], ?_⟩
    intro a b c d e hp
    simp [Query.fromData, h1, hp]
  · intro h2
    refine ⟨fun hn => by simp [Query.fromData, h2, hn], ?_⟩
    intro a b c d e f hp
    simp [Query.fromData, h2, hp]
  · intro h3
    refine ⟨fun hn => by simp [Query.fromData, h3, hn], ?_⟩
    intro a b c d e f g hp
    simp [Query.fromData, h3, hp]
  · intro hv
    simp only [Query.fromData]
    rw [if_neg (by omega), if_neg (by omega), if_neg (by omega)]

/-- Witness for C3 at version 2: a six-field line decodes positionally, a
one-field line fails with the v2 error. -/
theorem query_decode_spec_witness :
    Query.fromData { ProtocolVersion := 2 }
        "example.com\tIN\tANY\t-1\t127.0.0.2\t127.0.0.1"
      = .ok { ProtocolVersion := 2
              QName := "example.com"
              QClass := "IN"
              QType := "ANY"
              Id := "-1"
              RemoteIpAddress := "127.0.0.2"
              LocalIpAddress := "127.0.0.1" }
  ∧ Query.fromData { ProtocolVersion := 2 } "foo"
      = .error "v2 query should have 6 data parts" :=
  ⟨((query_decode_spec { ProtocolVersion := 2 }
        "example.com\tIN\tANY\t-1\t127.0.0.2\t127.0.0.1").2.1 rfl).2
      "example.com" "IN" "ANY" "-1" "127.0.0.2" "127.0.0.1" (by decide),
    ((query_decode_spec { ProtocolVersion := 2 } "foo").2.1 rfl).1 (by decide)⟩

/-- C5: on a match, the capture groups seen by the hook and handler are
the sub-matches excluding the whole match, the hook (if set) runs
unconditionally, the handler runs only when the error flag is still unset
after the hook, and the capture groups are restored afterwards; without a
match the node leaves the context untouched (so neither hook nor handler
runs). -/
theorem runNode_spec (d : DSL) (c : Context) (node : callbackNode) :
    (node.matcher c.Query.QName = none → d.runNode c node = c)
  ∧ (node.matcher c.Query.QName = some [] → d.runNode c node = c)
  ∧ (∀ ms, node.matcher c.Query.QName = some ms → ms ≠ [] →
      d.runNode c node =
        { (let c1 : Context := { c with Matches := ms.drop 1 }
           let c2 : Context :=
             match d.beforeCallback with
             | some f => f c1
             | none => c1
           if c2.Error = none then node.fn c2 else c2) with
          Matches := c.Matches }) := by
  refine ⟨fun h => by simp [DSL.runNode, h], fun h => by simp [DSL.runNode, h], ?_⟩
  intro ms h hne
  simp only [DSL.runNode, h]
  rw [if_pos (List.length_pos.mpr hne)]

/-- Witness for C5: running the example node on the example context (no
hook registered) appends one answer, leaves the error unset and restores
the previous capture groups. -/
theorem runNode_spec_witness :
    DSL.runNode DSL.New exampleContext exampleNode =
      { exampleContext with
        Answers := [{ QName := "example.com"
                      QClass := "IN"
                      QType := "A"
                      Id := "-1"
                      Content := "marker"
                      TTL := "60" }] } := by
  have h := (runNode_spec DSL.New exampleContext exampleNode).2.2
    ["example.com", "g1"] rfl (by decide)
  rw [h]
  decide

/-- A gated node with an error already set is a no-op. -/
theorem gatedNode_of_error (d : DSL) (c : Context) (n : callbackNode) (e : String)
    (h : c.Error = some e) : d.gatedNode c n = c := by
  simp [DSL.gatedNode, h]

/-- A gated node on an error-free context is `runNode`. -/
theorem gatedNode_of_no_error (d : DSL) (c : Context) (n : callbackNode)
    (h : c.Error = none) : d.gatedNode c n = d.runNode c n := by
  simp [DSL.gatedNode, h]

/-- Once the error is set, a gated node fold changes nothing. -/
theorem gatedFold_of_error (d : DSL) (ns : List callbackNode) (c : Context) (e : String)
    (h : c.Error = some e) :
    ns.foldl (fun c2 n => d.gatedNode c2 n) c = c := by
  induction ns with
  | nil => rfl
  | cons n rest ih => rw [List.foldl_cons, gatedNode_of_error d c n e h, ih]

/-- Once the error is set, the whole gated pass only churns the active
qtype: error and answers are unchanged. -/
theorem gatedRun_of_error (d : DSL) (ts : List String) (c : Context) (e : String)
    (h : c.Error = some e) :
    (d.gatedRun c ts).Error = some e ∧ (d.gatedRun c ts).Answers = c.Answers := by
  induction ts generalizing c with
  | nil => exact ⟨h, rfl⟩
  | cons t rest ih =>
    have h1 : ({ c with QType := t } : Context).Error = some e := h
    have hgr : d.gatedRun c (t :: rest)
        = d.gatedRun ((d.callbacks t).foldl (fun c2 n => d.gatedNode c2 n)
            { c with QType := t }) rest := rfl
    rw [hgr, gatedFold_of_error d _ _ e h1]
    exact ih { c with QType := t } h1

/-- The early-exit inner loop of `Lookup` agrees with the gated fold: a
clean finish returns exactly the gated-fold context, and an abort carries
the error the gated fold would also carry, with the aborting context's
answers. -/
theorem runNodes_gated (d : DSL) (ns : List callbackNode) (c : Context)
    (h : c.Error = none) :
    (∀ c2, d.runNodes c ns = (c2, none) →
      c2 = ns.foldl (fun c3 n => d.gatedNode c3 n) c ∧ c2.Error = none)
  ∧ (∀ c2 e, d.runNodes c ns = (c2, some e) →
      c2.Error = some e
      ∧ (ns.foldl (fun c3 n => d.gatedNode c3 n) c).Error = some e
      ∧ (ns.foldl (fun c3 n => d.gatedNode c3 n) c).Answers = c2.Answers) := by
  induction ns generalizing c with
  | nil =>
    refine ⟨fun c2 hc2 => ?_, fun c2 e hc2 => ?_⟩
    · simp only [DSL.runNodes, Prod.mk.injEq] at hc2
      obtain ⟨h1, -⟩ := hc2
      rw [← h1]
      exact ⟨rfl, h⟩
    · simp [DSL.runNodes] at hc2
  | cons n rest ih =>
    have hg : d.gatedNode c n = d.runNode c n := gatedNode_of_no_error d c n h
    refine ⟨fun c2 hc2 => ?_, fun c2 e hc2 => ?_⟩
    · rw [List.foldl_cons, hg]
      simp only [DSL.runNodes] at hc2
      cases he : (d.runNode c n).Error with
      | some e2 =>
        simp only [he] at hc2
        simp at hc2
      | none =>
        simp only [he] at hc2
        exact (ih (d.runNode c n) he).1 c2 hc2
    · rw [List.foldl_cons, hg]
      simp only [DSL.runNodes] at hc2
      cases he : (d.runNode c n).Error with
      | some e2 =>
        simp only [he, Option.some.injEq, Prod.mk.injEq] at hc2
        obtain ⟨hceq, heeq⟩ := hc2
        rw [← hceq, ← heeq]
        refine ⟨he, ?_, ?_⟩
        · rw [gatedFold_of_error d rest _ e2 he]; exact he
        · rw [gatedFold_of_error d rest _ e2 he]
      | none =>
        simp only [he] at hc2
        exact (ih (d.runNode c n) he).2 c2 e hc2

/-- The early-exit outer loop of `Lookup` agrees with the gated pass. -/
theorem runTypes_gated (d : DSL) (ts : List String) (c : Context)
    (h : c.Error = none) :
    (∀ c2, d.runTypes c ts = (c2, none) →
      c2 = d.gatedRun c ts ∧ c2.Error = none)
  ∧ (∀ c2 e, d.runTypes c ts = (c2, some e) →
      c2.Error = some e
      ∧ (d.gatedRun c ts).Error = some e
      ∧ (d.gatedRun c ts).Answers = c2.Answers) := by
  induction ts generalizing c with
  | nil =>
    refine ⟨fun c2 hc2 => ?_, fun c2 e hc2 => ?_⟩
    · simp only [DSL.runTypes, Prod.mk.injEq] at hc2
      obtain ⟨h1, -⟩ := hc2
      rw [← h1]
      exact ⟨rfl, h⟩
    · simp [DSL.runTypes] at hc2
  | cons t rest ih =>
    have h1 : ({ c with QType := t } : Context).Error = none := h
    have hgr : d.gatedRun c (t :: rest)
        = d.gatedRun ((d.callbacks t).foldl (fun c2 n => d.gatedNode c2 n)
            { c with QType := t }) rest := rfl
    refine ⟨fun c2 hc2 => ?_, fun c2 e hc2 => ?_⟩
    · simp only [DSL.runTypes] at hc2
      cases hr : d.runNodes { c with QType := t } (d.callbacks t) with
      | mk cmid r =>
        rw [hr] at hc2
        cases r with
        | some e2 => simp at hc2
        | none =>
          simp only at hc2
          obtain ⟨hmid, hmidE⟩ := (runNodes_gated d (d.callbacks t) _ h1).1 cmid hr
          rw [hgr, ← hmid]
          exact ih cmid hmidE |>.1 c2 hc2
    · simp only [DSL.runTypes] at hc2
      cases hr : d.runNodes { c with QType := t } (d.callbacks t) with
      | mk cmid r =>
        rw [hr] at hc2
        cases r with
        | some e2 =>
          simp only [Option.some.injEq, Prod.mk.injEq] at hc2
          obtain ⟨hceq, heeq⟩ := hc2
          obtain ⟨hcE, hgE, hgA⟩ := (runNodes_gated d (d.callbacks t) _ h1).2 cmid e2 hr
          rw [← hceq, ← heeq, hgr]
          obtain ⟨hE2, hA2⟩ := gatedRun_of_error d rest _ e2 hgE
          exact ⟨hcE, hE2, by rw [hA2, hgA]⟩
        | none =>
          simp only at hc2
          obtain ⟨hmid, hmidE⟩ := (runNodes_gated d (d.callbacks t) _ h1).1 cmid hr
          rw [hgr, ← hmid]
          exact ih cmid hmidE |>.2 c2 e hc2

/-- C2: a dispatch pass that sets the error flag makes `Lookup` return the
empty reply list together with exactly that error — replies accumulated in
the pass (by the erroring handler included) are discarded — while an
error-free pass returns the accumulated replies of the whole gated pass
with no error. -/
theorem lookup_error_discards_replies (d : DSL) (q : Query) :
    d.Lookup q =
      match (d.gatedRun (d.initContext q) (d.candidates q)).Error with
      | some e => ([], some e)
      | none => ((d.gatedRun (d.initContext q) (d.candidates q)).Answers, none) := by
  cases hr : d.runTypes (d.initContext q) (d.candidates q) with
  | mk c2 r =>
    cases r with
    | none =>
      obtain ⟨hc2, hc2E⟩ :=
        (runTypes_gated d (d.candidates q) (d.initContext q) rfl).1 c2 hr
      simp only [DSL.Lookup, hr]
      rw [← hc2, hc2E]
    | some e =>
      obtain ⟨-, hgE, -⟩ :=
        (runTypes_gated d (d.candidates q) (d.initContext q) rfl).2 c2 e hr
      simp only [DSL.Lookup, hr]
      rw [hgE]

/-- `runNode` only feeds the hook contexts whose error flag is as on
entry, so two hooks agreeing on error-free contexts act alike. -/
theorem runNode_hook_congr (d : DSL) (f g : Context → Context)
    (h : ∀ c : Context, c.Error = none → f c = g c) (c : Context)
    (n : callbackNode) (hc : c.Error = none) :
    DSL.runNode { d with beforeCallback := some f } c n
      = DSL.runNode { d with beforeCallback := some g } c n := by
  simp only [DSL.runNode]
  cases hm : n.matcher c.Query.QName with
  | none => rfl
  | some ms =>
    by_cases hlen : ms.length > 0
    · simp only [if_pos hlen]
      have hc1 : ({ c with Matches := ms.drop 1 } : Context).Error = none := hc
      rw [h _ hc1]
    · simp only [if_neg hlen]

/-- Inner-loop version of the hook congruence. -/
theorem runNodes_hook_congr (d : DSL) (f g : Context → Context)
    (h : ∀ c : Context, c.Error = none → f c = g c) (ns : List callbackNode) :
    ∀ c : Context, c.Error = none →
      DSL.runNodes { d with beforeCallback := some f } c ns
        = DSL.runNodes { d with beforeCallback := some g } c ns := by
  induction ns with
  | nil => intro c hc; rfl
  | cons n rest ih =>
    intro c hc
    simp only [DSL.runNodes]
    rw [runNode_hook_congr d f g h c n hc]
    cases he : (DSL.runNode { d with beforeCallback := some g } c n).Error with
    | some e => simp only [he]
    | none =>
      simp only [he]
      exact ih _ he

/-- Outer-loop version of the hook congruence. -/
theorem runTypes_hook_congr (d : DSL) (f g : Context → Context)
    (h : ∀ c : Context, c.Error = none → f c = g c) (ts : List String) :
    ∀ c : Context, c.Error = none →
      DSL.runTypes { d with beforeCallback := some f } c ts
        = DSL.runTypes { d with beforeCallback := some g } c ts := by
  induction ts with
  | nil => intro c hc; rfl
  | cons t rest ih =>
    intro c hc
    have hc1 : ({ c with QType := t } : Context).Error = none := hc
    simp only [DSL.runTypes]
    rw [runNodes_hook_congr d f g h _ _ hc1]
    cases hr : DSL.runNodes { d with beforeCallback := some g }
        { c with QType := t }
        (DSL.callbacks { d with beforeCallback := some g } t) with
    | mk cmid r =>
      cases r with
      | some e => simp only [hr]
      | none =>
        simp only [hr]
        obtain ⟨-, hE⟩ := (runNodes_gated { d with beforeCallback := some g }
          (DSL.callbacks { d with beforeCallback := some g } t) _ hc1).1 cmid hr
        exact ih cmid hE

/-- C10: during a `Lookup` pass the hook is only ever applied to contexts
with the error flag unset — `Lookup` cannot distinguish two hooks that
agree on error-free contexts, so a hook observing a prior error in the
same pass is an unreachable situation. -/
theorem hook_never_observes_error (d : DSL) (f g : Context → Context) (q : Query)
    (h : ∀ c : Context, c.Error = none → f c = g c) :
    DSL.Lookup { d with beforeCallback := some f } q
      = DSL.Lookup { d with beforeCallback := some g } q := by
  simp only [DSL.Lookup]
  rw [show DSL.initContext { d with beforeCallback := some f } q
      = DSL.initContext { d with beforeCallback := some g } q from rfl]
  rw [show DSL.candidates { d with beforeCallback := some f } q
      = DSL.candidates { d with beforeCallback := some g } q from rfl]
  rw [runTypes_hook_congr d f g h _ _ rfl]

/-- Witness for C10: swapping the identity hook for `errorSnooper` (which
differs from it exactly on error-carrying contexts) leaves a concrete
`Lookup` unchanged. -/
theorem hook_never_observes_error_witness :
    DSL.Lookup { mkMarkerDSL [("A", "a1")] with beforeCallback := some id } fakeQuery
      = DSL.Lookup { mkMarkerDSL [("A", "a1")] with beforeCallback := some errorSnooper }
          fakeQuery :=
  hook_never_observes_error (mkMarkerDSL [("A", "a1")]) id errorSnooper fakeQuery
    (fun c hc => by simp [errorSnooper, hc])

/-- The `Register` fold of `mkMarkerDSL` never touches the hook. -/
theorem register_fold_beforeCallback (regs : List (String × String)) :
    ∀ d : DSL,
      (regs.foldl (fun d r => d.Register r.1 alwaysMatch (markerFn r.2)) d).beforeCallback
        = d.beforeCallback := by
  induction regs with
  | nil => intro d; rfl
  | cons r rest ih => intro d; rw [List.foldl_cons, ih]; rfl

/-- The `Register` fold of `mkMarkerDSL` never touches the default TTL. -/
theorem register_fold_ttl (regs : List (String × String)) :
    ∀ d : DSL,
      (regs.foldl (fun d r => d.Register r.1 alwaysMatch (markerFn r.2)) d).defaultTTL
        = d.defaultTTL := by
  induction regs with
  | nil => intro d; rfl
  | cons r rest ih => intro d; rw [List.foldl_cons, ih]; rfl

/-- Per-type registration order: the fold appends each qtype's nodes in
registration order. -/
theorem register_fold_callbacks (regs : List (String × String)) :
    ∀ (d : DSL) (t : String),
      (regs.foldl (fun d r => d.Register r.1 alwaysMatch (markerFn r.2)) d).callbacks t
        = d.callbacks t
          ++ (contentsAt regs t).map
              (fun content => ({ matcher := alwaysMatch, fn := markerFn content } : callbackNode)) := by
  induction regs with
  | nil => intro d t; simp [contentsAt]
  | cons r rest ih =>
    intro d t
    rw [List.foldl_cons, ih]
    by_cases h : r.1 = t
    · simp [DSL.Register, contentsAt, h, List.filter_cons, List.append_assoc]
    · have hne : ¬(t = r.1) := fun hh => h hh.symm
      simp [DSL.Register, contentsAt, List.filter_cons, hne, h]

/-- The `qtypeSort` built by the fold is the contains-guarded append fold
over the registered qtypes. -/
theorem register_fold_qtypeSort (regs : List (String × String)) :
    ∀ d : DSL,
      (regs.foldl (fun d r => d.Register r.1 alwaysMatch (markerFn r.2)) d).qtypeSort
        = (regs.map (fun r => r.1)).foldl
            (fun acc t => if acc.contains t then acc else acc ++ [t]) d.qtypeSort := by
  induction regs with
  | nil => intro d; rfl
  | cons r rest ih =>
    intro d
    rw [List.foldl_cons, List.map_cons, List.foldl_cons, ih]
    rfl

/-- `discoveryOrder` commutes with dropping one qtype. -/
theorem discoveryOrder_filter (t : String) :
    ∀ l : List String,
      discoveryOrder (l.filter (fun x => x != t))
        = (discoveryOrder l).filter (fun x => x != t) := by
  intro l
  induction l with
  | nil => rfl
  | cons x xs ih =>
    by_cases hxt : x = t
    · subst hxt
      rw [List.filter_cons_of_neg (by simp), ih, discoveryOrder,
        List.filter_cons_of_neg (by simp), List.filter_filter]
      exact List.filter_congr (fun a ha => by cases h : a == x <;> simp [bne, h])
    · rw [List.filter_cons_of_pos (by simp [bne, hxt]), discoveryOrder, discoveryOrder,
        ih, List.filter_cons_of_pos (by simp [bne, hxt]), List.filter_filter,
        List.filter_filter]
      refine congrArg (fun l2 => x :: l2) ?_
      exact List.filter_congr (fun a ha => Bool.and_comm _ _)

/-- The contains-guarded append fold computes first-occurrence order. -/
theorem addT_discovery :
    ∀ (l seen : List String),
      l.foldl (fun acc t => if acc.contains t then acc else acc ++ [t]) seen
        = seen ++ discoveryOrder (l.filter (fun t => !seen.contains t)) := by
  intro l
  induction l with
  | nil => intro seen; simp [discoveryOrder]
  | cons t ts ih =>
    intro seen
    rw [List.foldl_cons]
    cases hseen : seen.contains t with
    | true =>
      have hif : (if (true : Bool) = true then seen else seen ++ [t]) = seen := rfl
      have hmem : t ∈ seen := List.mem_of_elem_eq_true hseen
      rw [hif, ih seen, List.filter_cons_of_neg (by simp [hmem])]
    | false =>
      have hif : (if (false : Bool) = true then seen else seen ++ [t])
          = seen ++ [t] := rfl
      have hmem : t ∉ seen := by
        intro hmem
        have h3 : seen.contains t = true := List.elem_eq_true_of_mem hmem
        rw [h3] at hseen
        cases hseen
      rw [hif, ih (seen ++ [t]), List.filter_cons_of_pos (by simp [hmem])]
      rw [discoveryOrder, List.append_assoc, List.singleton_append]
      have hfilter :
          ts.filter (fun x => !(seen ++ [t]).contains x)
            = (ts.filter (fun x => !seen.contains x)).filter (fun x => x != t) := by
        rw [List.filter_filter]
        refine List.filter_congr ?_
        intro x hx
        by_cases hxt : x = t <;> by_cases hxs : x ∈ seen <;> simp [hxt, hxs, bne]
      rw [hfilter, discoveryOrder_filter]

/-- C4 helper: the discovery order of the marker router is the
first-occurrence order of the registered qtypes. -/
theorem mkMarker_qtypeSort (regs : List (String × String)) :
    (mkMarkerDSL regs).qtypeSort = discoveryOrder (regs.map (fun r => r.1)) := by
  show (regs.foldl (fun d r => d.Register r.1 alwaysMatch (markerFn r.2))
      DSL.New).qtypeSort = _
  rw [register_fold_qtypeSort, addT_discovery]
  simp [DSL.New, DSL.NewWithTTL]

/-- Running one marker node appends exactly one answer. -/
theorem runNode_marker (d : DSL) (hb : d.beforeCallback = none) (c : Context)
    (content : String) (hc : c.Error = none) :
    d.runNode c { matcher := alwaysMatch, fn := markerFn content }
      = { c with Answers :=
            c.Answers ++ [markerAnswer c.Query c.DefaultTTL c.QType content] } := by
  simp [DSL.runNode, alwaysMatch, hb, markerFn, Context.Reply, Context.ReplyExtra,
    markerAnswer, hc]

/-- Running a list of marker nodes appends their answers in order and
never sets the error. -/
theorem runNodes_markers (d : DSL) (hb : d.beforeCallback = none) :
    ∀ (contents : List String) (c : Context), c.Error = none →
      d.runNodes c (contents.map
          (fun content => ({ matcher := alwaysMatch, fn := markerFn content } : callbackNode)))
        = ({ c with Answers :=
              c.Answers ++ contents.map (markerAnswer c.Query c.DefaultTTL c.QType) },
            none) := by
  intro contents
  induction contents with
  | nil => intro c hc; simp [DSL.runNodes]
  | cons content rest ih =>
    intro c hc
    simp only [List.map_cons, DSL.runNodes]
    rw [runNode_marker d hb c content hc]
    have hcE : ({ c with Answers :=
        c.Answers ++ [markerAnswer c.Query c.DefaultTTL c.QType content] } : Context).Error
        = none := hc
    simp only [hcE]
    rw [ih _ hcE]
    simp [hc, List.append_assoc]

/-- The marker router has no hook. -/
theorem mkMarker_beforeCallback (regs : List (String × String)) :
    (mkMarkerDSL regs).beforeCallback = none :=
  register_fold_beforeCallback regs DSL.New

/-- The marker router keeps the default TTL of `DSL.New`. -/
theorem mkMarker_ttl (regs : List (String × String)) :
    (mkMarkerDSL regs).defaultTTL = 3600 :=
  register_fold_ttl regs DSL.New

/-- Per-type handler lists of the marker router, in registration order. -/
theorem mkMarker_callbacks (regs : List (String × String)) (t : String) :
    (mkMarkerDSL regs).callbacks t
      = (contentsAt regs t).map
          (fun content => ({ matcher := alwaysMatch, fn := markerFn content } : callbackNode)) := by
  have h := register_fold_callbacks regs DSL.New t
  simpa [DSL.New, DSL.NewWithTTL] using h

/-- `runNodes_markers` specialised to a context whose qtype was just set. -/
theorem runNodes_markers_qtype (d : DSL) (hb : d.beforeCallback = none)
    (contents : List String) (c : Context) (t : String) (hc : c.Error = none) :
    d.runNodes { c with QType := t }
        (contents.map
          (fun content => ({ matcher := alwaysMatch, fn := markerFn content } : callbackNode)))
      = ({ c with
            QType := t
            Answers := c.Answers ++ contents.map (markerAnswer c.Query c.DefaultTTL t) },
          none) := by
  rw [runNodes_markers d hb contents { c with QType := t } hc]

/-- Running the marker router over a candidate type list appends, for each
type in order, that type's registered answers in registration order. -/
theorem runTypes_markers (regs : List (String × String)) :
    ∀ (ts : List String) (c : Context), c.Error = none →
      ∃ c2, (mkMarkerDSL regs).runTypes c ts = (c2, none)
        ∧ c2.Answers = c.Answers
            ++ ts.flatMap
              (fun t => (contentsAt regs t).map (markerAnswer c.Query c.DefaultTTL t))
        ∧ c2.Query = c.Query ∧ c2.DefaultTTL = c.DefaultTTL ∧ c2.Error = none := by
  intro ts
  induction ts with
  | nil => intro c hc; exact ⟨c, rfl, by simp, rfl, rfl, hc⟩
  | cons t rest ih =>
    intro c hc
    simp only [DSL.runTypes, mkMarker_callbacks regs t]
    rw [runNodes_markers_qtype (mkMarkerDSL regs) (mkMarker_beforeCallback regs)
      (contentsAt regs t) c t hc]
    obtain ⟨c2, hrec, hAns, hQ, hTTL, hE⟩ := ih
      { c with
        QType := t
        Answers := c.Answers ++ (contentsAt regs t).map (markerAnswer c.Query c.DefaultTTL t) }
      hc
    refine ⟨c2, ?_, ?_, ?_, ?_, hE⟩
    · simp only [hrec]
    · rw [hAns]
      simp [List.flatMap_cons, List.append_assoc]
    · rw [hQ]
    · rw [hTTL]

/-- C4: a non-"ANY" query invokes exactly the handlers registered for its
type, in registration order; an "ANY" query invokes each type's handler
group in global first-registration (discovery) order with the handlers
inside each group in registration order — observable through the order of
the replies the marker handlers produce. -/
theorem lookup_order_spec (regs : List (String × String)) (q : Query) :
    (q.QType ≠ "ANY" →
      DSL.Lookup (mkMarkerDSL regs) q
        = ((contentsAt regs q.QType).map (markerResponse q q.QType), none))
  ∧ (q.QType = "ANY" →
      DSL.Lookup (mkMarkerDSL regs) q
        = ((discoveryOrder (regs.map (fun r => r.1))).flatMap
            (fun t => (contentsAt regs t).map (markerResponse q t)), none)) := by
  have hmr : ∀ t : String, markerAnswer q 3600 t = markerResponse q t :=
    fun t => rfl
  constructor
  · intro hq
    have hcand : (mkMarkerDSL regs).candidates q = [q.QType] := by
      simp [DSL.candidates, hq]
    obtain ⟨c2, hrt, hAns, -, -, -⟩ :=
      runTypes_markers regs [q.QType] ((mkMarkerDSL regs).initContext q) rfl
    simp only [DSL.Lookup, hcand, hrt]
    rw [hAns]
    simp [DSL.initContext, mkMarker_ttl, hmr]
  · intro hq
    have hcand : (mkMarkerDSL regs).candidates q
        = discoveryOrder (regs.map (fun r => r.1)) := by
      simp [DSL.candidates, hq, mkMarker_qtypeSort]
    obtain ⟨c2, hrt, hAns, -, -, -⟩ :=
      runTypes_markers regs (discoveryOrder (regs.map (fun r => r.1)))
        ((mkMarkerDSL regs).initContext q) rfl
    simp only [DSL.Lookup, hcand, hrt]
    rw [hAns]
    simp [DSL.initContext, mkMarker_ttl, hmr]

/-- Witness for C4: with discovery order [MX, A, TXT] (MX registered
first, again third), a type-"ANY" query gets the MX group's two answers
first, then A, then TXT — not the registration interleaving and not
alphabetical order. -/
theorem lookup_order_spec_witness :
    DSL.Lookup
        (mkMarkerDSL [("MX", "m1"), ("A", "a1"), ("MX", "m2"), ("TXT", "t1")])
        fakeQuery
      = ([markerResponse fakeQuery "MX" "m1", markerResponse fakeQuery "MX" "m2",
          markerResponse fakeQuery "A" "a1", markerResponse fakeQuery "TXT" "t1"],
          none) := by
  have h := (lookup_order_spec
    [("MX", "m1"), ("A", "a1"), ("MX", "m2"), ("TXT", "t1")] fakeQuery).2 rfl
  rw [h]
  decide

/-- `dropWhile` passes over a block of satisfying elements. -/
theorem dropWhile_append_all {α : Type} (p : α → Bool) :
    ∀ (l l2 : List α), (∀ x ∈ l, p x = true) →
      (l ++ l2).dropWhile p = l2.dropWhile p := by
  intro l l2 h
  induction l with
  | nil => rfl
  | cons x xs ih =>
    rw [List.cons_append, List.dropWhile_cons_of_pos (h x (by simp))]
    exact ih (fun y hy => h y (by simp [hy]))

/-- `takeWhile` keeps a block of satisfying elements. -/
theorem takeWhile_append_all {α : Type} (p : α → Bool) :
    ∀ (l l2 : List α), (∀ x ∈ l, p x = true) →
      (l ++ l2).takeWhile p = l ++ l2.takeWhile p := by
  intro l l2 h
  induction l with
  | nil => rfl
  | cons x xs ih =>
    rw [List.cons_append, List.takeWhile_cons_of_pos (h x (by simp))]
    rw [ih (fun y hy => h y (by simp [hy]))]
    rfl

/-- `dropWhile` leaves a list of non-satisfying elements alone. -/
theorem dropWhile_none {α : Type} (p : α → Bool) :
    ∀ l : List α, (∀ x ∈ l, p x = false) → l.dropWhile p = l := by
  intro l h
  cases l with
  | nil => rfl
  | cons x xs => exact List.dropWhile_cons_of_neg (by simp [h x (by simp)])

/-- `dropWhile` consumes a list of satisfying elements entirely. -/
theorem dropWhile_all {α : Type} (p : α → Bool) :
    ∀ l : List α, (∀ x ∈ l, p x = true) → l.dropWhile p = [] := by
  intro l h
  induction l with
  | nil => rfl
  | cons x xs ih =>
    rw [List.dropWhile_cons_of_pos (h x (by simp))]
    exact ih (fun y hy => h y (by simp [hy]))

/-- Go strings concatenate by concatenating their characters. -/
theorem string_data_append (a b : String) : (a ++ b).data = a.data ++ b.data := rfl

/-- `readLine` on a terminator-free line followed by its terminator. -/
theorem readLine_line (cmd : String) (h : ('\n') ∉ cmd.data) (rest : List Char) :
    readLine (cmd.data ++ '\n' :: rest) = some (⟨cmd.data ++ ['\n']⟩, rest) := by
  have hall : ∀ x ∈ cmd.data, (decide (x ≠ '\n')) = true := by
    intro x hx
    simp only [decide_eq_true_eq]
    exact fun he => h (he ▸ hx)
  unfold readLine
  rw [dropWhile_append_all _ _ _ hall, takeWhile_append_all _ _ _ hall]
  rw [List.dropWhile_cons_of_neg (by simp), List.takeWhile_cons_of_neg (by simp)]
  simp

/-- `strings.TrimRight` strips exactly the trailing terminator from a
terminator-free line. -/
theorem trimRight_line (cmd : String) (h : ('\n') ∉ cmd.data) :
    trimRightSet ⟨cmd.data ++ ['\n']⟩ ['\n'] = cmd := by
  unfold trimRightSet
  rw [show (⟨cmd.data ++ ['\n']⟩ : String).data = cmd.data ++ ['\n'] from rfl]
  rw [List.reverse_append]
  rw [show (['\n'] : List Char).reverse = ['\n'] from rfl]
  rw [List.cons_append, List.nil_append,
    List.dropWhile_cons_of_pos (by simp)]
  rw [dropWhile_none _ _ ?hrest]
  case hrest =>
    intro x hx
    have hxmem : x ∈ cmd.data := List.mem_reverse.mp hx
    simp only [List.contains_cons]
    have hxne : (x == '\n') = false := by
      cases heq : x == '\n' with
      | true => exact absurd (by simpa using heq : x = '\n') (fun he => h (he ▸ hxmem))
      | false => rfl
    simp [hxne]
  rw [List.reverse_reverse]

/-- `strings.SplitN(s, sep, 2)` on separator-free text returns one part. -/
theorem splitN2_no_sep (sep : Char) (s : String) (h : sep ∉ s.data) :
    splitN2 sep s = (s, none) := by
  unfold splitN2
  rw [dropWhile_all _ _ ?hall]
  case hall =>
    intro x hx
    simp only [decide_eq_true_eq]
    exact fun he => h (he ▸ hx)

/-- C1 (code-bug evidence): after negotiating version 3, a `Q` line whose
command token has no tab-separated remainder makes `Run` fault — the Go
code indexes `parts[1]` out of range and panics — writing nothing and
neither returning cleanly nor logging the per-request failure the spec
describes. -/
theorem run_q_without_tab_faults :
    Backend.run emptyDispatch
        { Banner := ""
          ProtocolVersion := 3
          input := ("Q\n").data
          output := ""
          writeOracle := [] }
      = (RunResult.fault,
          { Banner := ""
            ProtocolVersion := 3
            input := []
            output := ""
            writeOracle := [] }) := by decide

/-- C9 counterexample: an unrecognized command ("GOGOGO") yields the
log+fail pair as claimed, but its message reads "Bad command" — the
claim's quoted text "bad command" does not occur in it. -/
theorem run_bad_command_counterexample :
    Backend.run emptyDispatch
        { Banner := ""
          ProtocolVersion := 3
          input := ("GOGOGO\n").data
          output := ""
          writeOracle := [] }
      = (RunResult.ok,
          { Banner := ""
            ProtocolVersion := 3
            input := []
            output := "LOG\tError handling line: Bad command\nFAIL\n"
            writeOracle := [] })
  ∧ occursIn ("bad command").data
      ("LOG\tError handling line: Bad command\nFAIL\n").data = false := by decide

/-- C9 (amended): at every negotiated version, `PING` yields zero DATA
lines and one bare terminator; `AXFR` yields a log+fail pair whose message
contains "not supported"; any line with an unrecognized command token
yields a log+fail pair whose message contains "Bad command" (capital B, as
the code emits it). -/
theorem run_commands_spec (v : Int) (cb : Callback) (cmd : String) :
    (Backend.run cb
        { Banner := ""
          ProtocolVersion := v
          input := ("PING\n").data
          output := ""
          writeOracle := [] }
      = (RunResult.ok,
          { Banner := ""
            ProtocolVersion := v
            input := []
            output := "END\n"
            writeOracle := [] }))
  ∧ (Backend.run cb
        { Banner := ""
          ProtocolVersion := v
          input := ("AXFR\n").data
          output := ""
          writeOracle := [] }
      = (RunResult.ok,
          { Banner := ""
            ProtocolVersion := v
            input := []
            output := "LOG\tError handling line: AXFR requests not supported\nFAIL\n"
            writeOracle := [] })
    ∧ occursIn ("not supported").data
        ("LOG\tError handling line: AXFR requests not supported\nFAIL\n").data = true)
  ∧ (('\n') ∉ cmd.data → ('\t') ∉ cmd.data →
      cmd ≠ "Q" → cmd ≠ "PING" → cmd ≠ "AXFR" →
      Backend.run cb
          { Banner := ""
            ProtocolVersion := v
            input := (cmd ++ "\n").data
            output := ""
            writeOracle := [] }
        = (RunResult.ok,
            { Banner := ""
              ProtocolVersion := v
              input := []
              output := "LOG\tError handling line: Bad command\nFAIL\n"
              writeOracle := [] })
    ∧ occursIn ("Bad command").data
        ("LOG\tError handling line: Bad command\nFAIL\n").data = true) := by
  refine ⟨rfl, ⟨rfl, by decide⟩, ?_⟩
  intro h1 h2 h3 h4 h5
  refine ⟨?_, by decide⟩
  have hdata : (cmd ++ "\n").data = cmd.data ++ '\n' :: [] := rfl
  simp only [Backend.run, hdata, List.length_append, List.length_cons,
    List.length_nil]
  simp only [Backend.runAux, readLine_line cmd h1 []]
  rw [trimRight_line cmd h1, splitN2_no_sep '\t' cmd h2]
  simp only [if_neg h3, if_neg h4, if_neg h5]
  simp only [Backend.writeOp, Backend.flushOp, flattenNewlines, Backend.runAux,
    readLine]
  refine Prod.ext rfl ?_
  show ({ Banner := ""
          ProtocolVersion := v
          input := []
          output := "" ++ ("LOG\tError handling line: "
            ++ { data := "Bad command".data.map (fun c => if c = '\n' then ' ' else c) }
            ++ "\nFAIL\n")
          writeOracle := [] } : Backend) = _
  have hout : ("" : String) ++ ("LOG\tError handling line: "
      ++ ({ data := "Bad command".data.map (fun c => if c = '\n' then ' ' else c) } : String)
      ++ "\nFAIL\n") = "LOG\tError handling line: Bad command\nFAIL\n" := by decide
  rw [hout]

/-- Witness for C9 (amended) at version 3 with the unrecognized command
"GOGOGO". -/
theorem run_commands_spec_witness :
    Backend.run emptyDispatch
        { Banner := ""
          ProtocolVersion := 3
          input := ("GOGOGO" ++ "\n").data
          output := ""
          writeOracle := [] }
      = (RunResult.ok,
          { Banner := ""
            ProtocolVersion := 3
            input := []
            output := "LOG\tError handling line: Bad command\nFAIL\n"
            writeOracle := [] })
    ∧ occursIn ("Bad command").data
        ("LOG\tError handling line: Bad command\nFAIL\n").data = true :=
  (run_commands_spec 3 emptyDispatch "GOGOGO").2.2
    (by decide) (by decide) (by decide) (by decide) (by decide)

/-- Splitting a separator-joined list recovers the fields when no field
contains the separator. -/
theorem goSplit_goJoin (sep : Char) (fs : List String) (hne : fs ≠ [])
    (hfree : ∀ f ∈ fs, sep ∉ f.data) :
    goSplit sep (goJoin sep fs) = fs := by
  unfold goSplit goJoin
  rw [show ({ data := List.intercalate [sep] (fs.map String.data) } : String).data
      = List.intercalate [sep] (fs.map String.data) from rfl]
  rw [List.splitOn_intercalate (fs.map String.data) sep ?h1 ?h2]
  · rw [List.map_map]
    have hid : ((fun cs => (⟨cs⟩ : String)) ∘ String.data) = id := funext (fun s => rfl)
    rw [hid, List.map_id]
  case h1 =>
    intro l hl
    obtain ⟨f, hf, rfl⟩ := List.mem_map.mp hl
    exact hfree f hf
  case h2 =>
    intro hmap
    exact hne (List.map_eq_nil_iff.mp hmap)

/-- C7: for v in 1..3, decoding a well-formed query line (correct field
count, fields free of tabs and terminators) and re-encoding it at the same
version reproduces the line exactly, including the leading command token
and the single trailing terminator. -/
theorem query_roundtrip_spec (v : Int) (fields : List String)
    (hv : v = 1 ∨ v = 2 ∨ v = 3)
    (hlen : fields.length = 4 + v.toNat)
    (hfree : ∀ f ∈ fields, ('\t') ∉ f.data ∧ ('\n') ∉ f.data) :
    ∃ q : Query,
      Query.fromData { ProtocolVersion := v } (goJoin '\t' fields) = .ok q
      ∧ Query.string q = .ok ("Q\t" ++ goJoin '\t' fields ++ "\n") := by
  have hne : fields ≠ [] := by
    intro h
    subst h
    rcases hv with rfl | rfl | rfl <;> simp at hlen
  have hsplit : goSplit '\t' (goJoin '\t' fields) = fields :=
    goSplit_goJoin '\t' fields hne (fun f hf => (hfree f hf).1)
  rcases hv with rfl | rfl | rfl
  · have h5 : fields.length = 5 := by simpa using hlen
    rcases fields with _ | ⟨f1, _ | ⟨f2, _ | ⟨f3, _ | ⟨f4, _ | ⟨f5, _ | ⟨f6, rest⟩⟩⟩⟩⟩⟩ <;>
      simp at h5
    refine ⟨{ ProtocolVersion := 1
              QName := f1
              QClass := f2
              QType := f3
              Id := f4
              RemoteIpAddress := f5 }, ?_, ?_⟩
    · simp [Query.fromData, hsplit]
    · simp only [Query.string]
      rw [if_pos trivial]
      refine congrArg Except.ok (String.ext ?_)
      simp [goJoin, List.intercalate, List.intersperse, string_data_append]
  · have h6 : fields.length = 6 := by simpa using hlen
    rcases fields with _ | ⟨f1, _ | ⟨f2, _ | ⟨f3, _ | ⟨f4, _ | ⟨f5, _ | ⟨f6, _ | ⟨f7, rest⟩⟩⟩⟩⟩⟩⟩ <;>
      simp at h6
    refine ⟨{ ProtocolVersion := 2
              QName := f1
              QClass := f2
              QType := f3
              Id := f4
              RemoteIpAddress := f5
              LocalIpAddress := f6 }, ?_, ?_⟩
    · simp [Query.fromData, hsplit]
    · simp only [Query.string]
      rw [if_pos trivial]
      refine congrArg Except.ok (String.ext ?_)
      simp [goJoin, List.intercalate, List.intersperse, string_data_append]
  · have h7 : fields.length = 7 := by simpa using hlen
    rcases fields with
      _ | ⟨f1, _ | ⟨f2, _ | ⟨f3, _ | ⟨f4, _ | ⟨f5, _ | ⟨f6, _ | ⟨f7, _ | ⟨f8, rest⟩⟩⟩⟩⟩⟩⟩⟩ <;>
      simp at h7
    refine ⟨{ ProtocolVersion := 3
              QName := f1
              QClass := f2
              QType := f3
              Id := f4
              RemoteIpAddress := f5
              LocalIpAddress := f6
              EdnsSubnetAddress := f7 }, ?_, ?_⟩
    · simp [Query.fromData, hsplit]
    · simp only [Query.string]
      rw [if_pos trivial]
      refine congrArg Except.ok (String.ext ?_)
      simp [goJoin, List.intercalate, List.intersperse, string_data_append]

/-- Witness for C7 at version 3 with the test-helper query fields. -/
theorem query_roundtrip_spec_witness :
    ∃ q : Query,
      Query.fromData { ProtocolVersion := 3 }
          (goJoin '\t'
            ["example.com", "IN", "ANY", "-1", "127.0.0.2", "127.0.0.1", "127.0.0.3"])
        = .ok q
      ∧ Query.string q
        = .ok ("Q\t"
            ++ goJoin '\t'
              ["example.com", "IN", "ANY", "-1", "127.0.0.2", "127.0.0.1", "127.0.0.3"]
            ++ "\n") :=
  query_roundtrip_spec 3
    ["example.com", "IN", "ANY", "-1", "127.0.0.2", "127.0.0.1", "127.0.0.3"]
    (by decide) (by decide) (by decide)

/-- `Negotiate` when the input holds no complete line: the read fails. -/
theorem negotiate_eof (b : Backend) (hr : readLine b.input = none) :
    b.Negotiate = ({ b with input := [] }, some "EOF") := by
  simp only [Backend.Negotiate, hr]

/-- `Negotiate` on a malformed hello line. -/
theorem negotiate_bad_hello (b : Backend) (hello : String) (rest : List Char)
    (hr : readLine b.input = some (hello, rest))
    (hbad : (goSplit '\t' (trimRightSet hello ['\r', '\n'])).length ≠ 2
      ∨ (goSplit '\t' (trimRightSet hello ['\r', '\n'])).getD 0 "" ≠ "HELO") :
    b.Negotiate = ({ b with input := rest }, some "Bad hello from client") := by
  simp only [Backend.Negotiate, hr]
  rw [if_pos hbad]

/-- `Negotiate` on a hello whose version text is not an integer in 1-3. -/
theorem negotiate_bad_version (b : Backend) (hello : String) (rest : List Char)
    (s : String)
    (hr : readLine b.input = some (hello, rest))
    (hp : goSplit '\t' (trimRightSet hello ['\r', '\n']) = ["HELO", s])
    (hbad : ∀ ver : Int, atoi s = some ver → ver < 1 ∨ ver > 3) :
    b.Negotiate
      = ({ b with input := rest }, some "Unknown protocol version requested") := by
  simp only [Backend.Negotiate, hr, hp]
  rw [if_neg (by simp)]
  rw [if_pos ?hguard]
  case hguard =>
    cases ha : atoi s with
    | none => simp [ha]
    | some ver =>
      have h2 := hbad ver ha
      simp [ha]
      omega

/-- `Negotiate` after a well-formed hello: acknowledge, flush, store. -/
theorem negotiate_parse_ok (b : Backend) (hello : String) (rest : List Char)
    (s : String) (ver : Int)
    (hr : readLine b.input = some (hello, rest))
    (hp : goSplit '\t' (trimRightSet hello ['\r', '\n']) = ["HELO", s])
    (ha : atoi s = some ver) (h1 : 1 ≤ ver) (h3 : ver ≤ 3) :
    b.Negotiate =
      match ({ b with input := rest } : Backend).writeOp ("OK\t" ++ b.Banner ++ "\n") with
      | (b2, some e) => (b2, some e)
      | (b2, none) =>
        match b2.flushOp with
        | (b3, some e) => (b3, some e)
        | (b3, none) => ({ b3 with ProtocolVersion := ver }, none) := by
  simp only [Backend.Negotiate, hr, hp]
  rw [if_neg (by simp)]
  rw [if_neg (by simp [ha]; omega)]
  simp [ha]

/-- C6: `Negotiate` succeeds exactly when the first line, stripped of
trailing CR/LF, splits on tab into "HELO" and the text of an integer
version in 1-3 (given writes succeed); on success it writes the
acknowledgement `OK<tab>banner<newline>`, flushes, and stores the version;
on any failure it returns an error, the stored version is unchanged, a
parse failure writes nothing, and a failed write or flush of the
acknowledgement is itself an error. -/
theorem negotiate_spec (b : Backend) :
    (b.writeOracle = [] →
      ((b.Negotiate.2 = none) ↔
        ∃ hello rest s ver, readLine b.input = some (hello, rest)
          ∧ goSplit '\t' (trimRightSet hello ['\r', '\n']) = ["HELO", s]
          ∧ atoi s = some ver ∧ 1 ≤ ver ∧ ver ≤ 3))
  ∧ (b.writeOracle = [] →
      ∀ hello rest s ver,
        readLine b.input = some (hello, rest) →
        goSplit '\t' (trimRightSet hello ['\r', '\n']) = ["HELO", s] →
        atoi s = some ver → 1 ≤ ver → ver ≤ 3 →
        b.Negotiate
          = ({ b with
                ProtocolVersion := ver
                input := rest
                output := b.output ++ ("OK\t" ++ b.Banner ++ "\n") }, none))
  ∧ (∀ e, b.Negotiate.2 = some e →
      b.Negotiate.1.ProtocolVersion = b.ProtocolVersion)
  ∧ ((¬ ∃ hello rest s ver, readLine b.input = some (hello, rest)
        ∧ goSplit '\t' (trimRightSet hello ['\r', '\n']) = ["HELO", s]
        ∧ atoi s = some ver ∧ 1 ≤ ver ∧ ver ≤ 3) →
      b.Negotiate.2 ≠ none ∧ b.Negotiate.1.output = b.output)
  ∧ (∀ hello rest s ver,
        readLine b.input = some (hello, rest) →
        goSplit '\t' (trimRightSet hello ['\r', '\n']) = ["HELO", s] →
        atoi s = some ver → 1 ≤ ver → ver ≤ 3 →
        (∀ e tail, b.writeOracle = some e :: tail → b.Negotiate.2 = some e)
        ∧ (∀ e tail, b.writeOracle = none :: some e :: tail →
            b.Negotiate.2 = some e)) := by
  have hsucc : b.writeOracle = [] →
      ∀ hello rest s ver,
        readLine b.input = some (hello, rest) →
        goSplit '\t' (trimRightSet hello ['\r', '\n']) = ["HELO", s] →
        atoi s = some ver → 1 ≤ ver → ver ≤ 3 →
        b.Negotiate
          = ({ b with
                ProtocolVersion := ver
                input := rest
                output := b.output ++ ("OK\t" ++ b.Banner ++ "\n") }, none) := by
    intro hw hello rest s ver hr hp ha h1 h3
    rw [negotiate_parse_ok b hello rest s ver hr hp ha h1 h3]
    simp only [Backend.writeOp, Backend.flushOp, hw]
  have hfail : (¬ ∃ hello rest s ver, readLine b.input = some (hello, rest)
        ∧ goSplit '\t' (trimRightSet hello ['\r', '\n']) = ["HELO", s]
        ∧ atoi s = some ver ∧ 1 ≤ ver ∧ ver ≤ 3) →
      b.Negotiate.2 ≠ none ∧ b.Negotiate.1.output = b.output := by
    intro hnp
    cases hr : readLine b.input with
    | none => rw [negotiate_eof b hr]; exact ⟨by simp, rfl⟩
    | some pr =>
      obtain ⟨hello, rest⟩ := pr
      by_cases hbad1 : (goSplit '\t' (trimRightSet hello ['\r', '\n'])).length ≠ 2
          ∨ (goSplit '\t' (trimRightSet hello ['\r', '\n'])).getD 0 "" ≠ "HELO"
      · rw [negotiate_bad_hello b hello rest hr hbad1]; exact ⟨by simp, rfl⟩
      · push_neg at hbad1
        obtain ⟨x, y, hxy⟩ := List.length_eq_two.mp hbad1.1
        have hx : x = "HELO" := by
          have h2 := hbad1.2
          rw [hxy] at h2
          simpa using h2
        subst hx
        have hbadv : ∀ ver : Int, atoi y = some ver → ver < 1 ∨ ver > 3 := by
          intro ver ha
          by_contra hcon
          push_neg at hcon
          exact hnp ⟨hello, rest, y, ver, hr, hxy, ha, by omega, by omega⟩
        rw [negotiate_bad_version b hello rest y hr hxy hbadv]
        exact ⟨by simp, rfl⟩
  refine ⟨?_, hsucc, ?_, hfail, ?_⟩
  · intro hw
    constructor
    · intro hnone
      by_contra hnp
      exact (hfail hnp).1 hnone
    · rintro ⟨hello, rest, s, ver, hr, hp, ha, h1, h3⟩
      rw [hsucc hw hello rest s ver hr hp ha h1 h3]
  · intro e he
    cases hr : readLine b.input with
    | none => rw [negotiate_eof b hr]
    | some pr =>
      obtain ⟨hello, rest⟩ := pr
      by_cases hbad1 : (goSplit '\t' (trimRightSet hello ['\r', '\n'])).length ≠ 2
          ∨ (goSplit '\t' (trimRightSet hello ['\r', '\n'])).getD 0 "" ≠ "HELO"
      · rw [negotiate_bad_hello b hello rest hr hbad1]
      · push_neg at hbad1
        obtain ⟨x, y, hxy⟩ := List.length_eq_two.mp hbad1.1
        have hx : x = "HELO" := by
          have h2 := hbad1.2
          rw [hxy] at h2
          simpa using h2
        subst hx
        cases ha : atoi y with
        | none =>
          rw [negotiate_bad_version b hello rest y hr hxy
            (fun ver h => by rw [ha] at h; cases h)]
        | some ver =>
          by_cases hrange : 1 ≤ ver ∧ ver ≤ 3
          · rw [negotiate_parse_ok b hello rest y ver hr hxy ha hrange.1 hrange.2] at he ⊢
            cases ho : b.writeOracle with
            | nil => rw [ho] at he; simp [Backend.writeOp, Backend.flushOp] at he
            | cons o1 t1 =>
              cases o1 with
              | some e1 => simp [Backend.writeOp]
              | none =>
                cases t1 with
                | nil => rw [ho] at he; simp [Backend.writeOp, Backend.flushOp] at he
                | cons o2 t2 =>
                  cases o2 with
                  | some e2 => simp [Backend.writeOp, Backend.flushOp]
                  | none => rw [ho] at he; simp [Backend.writeOp, Backend.flushOp] at he
          · rw [negotiate_bad_version b hello rest y hr hxy
              (fun ver2 h => by rw [ha] at h; cases h; omega)]
  · intro hello rest s ver hr hp ha h1 h3
    constructor
    · intro e tail ho
      rw [negotiate_parse_ok b hello rest s ver hr hp ha h1 h3]
      simp [Backend.writeOp, ho]
    · intro e tail ho
      rw [negotiate_parse_ok b hello rest s ver hr hp ha h1 h3]
      simp [Backend.writeOp, Backend.flushOp, ho]

/-- Witness for C6: a version-3 handshake against the test banner. -/
theorem negotiate_spec_witness :
    Backend.Negotiate
        { Banner := "Testing Backend"
          ProtocolVersion := 0
          input := ("HELO\t3\n").data
          output := ""
          writeOracle := [] }
      = ({ Banner := "Testing Backend"
           ProtocolVersion := 3
           input := []
           output := "OK\tTesting Backend\n"
           writeOracle := [] }, none) := by
  have h := (negotiate_spec
      { Banner := "Testing Backend"
        ProtocolVersion := 0
        input := ("HELO\t3\n").data
        output := ""
        writeOracle := [] }).2.1 rfl "HELO\t3\n" [] "3" 3
    (by decide) (by decide) (by decide) (by decide) (by decide)
  exact h.trans (by decide)
